import Mathlib

/-!
Verification development for the Eufy Robovac S1 Pro telemetry decoding core
(`custom_components/eufy_robovac_s1_pro/sensor.py`).

Shallow embedding conventions:
* Python `bytes` values become `List Nat` with each element a byte value.
* Python `None` becomes `Option.none`; fallible results become `Option`.
* The base64 decoding step (`base64.b64decode`, a library call outside the
  repository) is abstracted: parsing functions receive the decode result as an
  `Option (List Nat)`, where `Option.none` models a decode failure (the Python
  code catches the raised exception and keeps the all-null statistics record).
* Python dicts with string keys become association lists `List (String × _)`;
  `dict.get` becomes `dictLookup` (with a `getD` for the default argument).
-/

namespace Robovac

/-- Loop body of `decode_varint` (sensor.py lines 27-39): starting at `pos`
with accumulator `value` and bit offset `shift`, consume bytes while the
continuation bit (bit 7) is set, OR-ing each byte's low 7 bits into `value`
shifted by `shift`, and stop after a byte with bit 7 clear or at end of
input. -/
def decodeVarintLoop (data : List Nat) (pos value shift : Nat) : Nat × Nat :=
  if h : pos < data.length then
    let byte := data.getD pos 0
    let value' := value ||| ((byte &&& 0x7F) <<< shift)
    if byte &&& 0x80 = 0 then
      (value', pos + 1)
    else
      decodeVarintLoop data (pos + 1) value' (shift + 7)
  else
    (value, pos)
termination_by data.length - pos
decreasing_by
  omega

/-- `decode_varint(data, start_pos)` from sensor.py lines 21-39: decode a
Protocol Buffer style base-128 varint, returning the decoded value and the
position immediately after the last consumed byte. -/
def decode_varint (data : List Nat) (start_pos : Nat) : Nat × Nat :=
  decodeVarintLoop data start_pos 0 0

/-- Modelled from the spec: the base-128 continuation encoding of an unsigned
integer (low 7 bits per byte, bit 7 set on every byte except the last).
This is the encoder side of the spec's varint round-trip property; the
repository only contains the decoder. -/
def varintEncode (n : Nat) : List Nat :=
  if n < 128 then [n]
  else (n % 128 + 128) :: varintEncode (n / 128)
termination_by n
decreasing_by
  exact Nat.div_lt_self (by omega) (by omega)

/-- Concatenation of the base-128 encodings of a sequence of integers. -/
def encodeSeq (vs : List Nat) : List Nat :=
  (vs.map varintEncode).flatten

/-- Repeatedly apply `decode_varint`, `k` times, collecting each returned
`(value, next_position)` pair; each call resumes at the position returned by
the previous one. -/
def decodeSeq (data : List Nat) (pos : Nat) : Nat → List (Nat × Nat)
  | 0 => []
  | k + 1 =>
    let r := decode_varint data pos
    r :: decodeSeq data r.2 k

/-- The `(value, next_position)` pairs the spec's round-trip property expects:
each original value paired with the offset just past its encoding. -/
def expectedPairs (pos : Nat) : List Nat → List (Nat × Nat)
  | [] => []
  | v :: vs =>
    (v, pos + (varintEncode v).length) :: expectedPairs (pos + (varintEncode v).length) vs

/-- Association-list lookup modelling Python `dict` access with string keys
(`none` when the key is absent). -/
def dictLookup {α : Type} : List (String × α) → String → Option α
  | [], _ => Option.none
  | p :: rest, k => if p.1 = k then some p.2 else dictLookup rest k

/-- Assignment `stats[k] = v` to an existing key of a Python dict (the parser
only ever assigns to keys present in the initial record). -/
def setStat (stats : List (String × Option Nat)) (k : String) (v : Option Nat) :
    List (String × Option Nat) :=
  stats.map fun p => if p.1 = k then (k, v) else p

/-- Python `stats.get(k)`: absent key and a stored `None` value both come back
as `None`. -/
def dictGetStat (stats : List (String × Option Nat)) (k : String) : Option Nat :=
  (dictLookup stats k).getD Option.none

/-- The initial statistics record of `parse_dps167_statistics` (sensor.py
lines 56-60): all three keys present, all values `None`. -/
def emptyStats : List (String × Option Nat) :=
  [("total_count", Option.none), ("total_area", Option.none),
   ("total_time_mins", Option.none)]

/-- `parse_dps167_statistics` from sensor.py lines 42-119, after the base64
step: `decoded` is `none` when `base64.b64decode` raised (the except branch
returns the untouched record), otherwise the decoded bytes.  The count field
is located by trying tag byte `0x18` at `len-2`, `len-3`, `len-4` in that
order; the area field is read from fixed offsets 14-15 when the blob has at
least 16 bytes.  Python's negative indices `data[-i]` are written
`data.getD (data.length - i) 0`, in range under the guarding length tests. -/
def parse_dps167_statistics (decoded : Option (List Nat)) : List (String × Option Nat) :=
  match decoded with
  | Option.none => emptyStats
  | some data =>
    if data.length = 0 then emptyStats
    else
      let n := data.length
      let stats1 :=
        if 2 ≤ n ∧ data.getD (n - 2) 0 = 0x18 then
          setStat emptyStats "total_count" (some (data.getD (n - 1) 0))
        else if 3 ≤ n ∧ data.getD (n - 3) 0 = 0x18 then
          let byte1 := data.getD (n - 2) 0
          let byte2 := data.getD (n - 1) 0
          if byte1 &&& 0x80 ≠ 0 then
            setStat emptyStats "total_count" (some ((byte1 &&& 0x7F) + (byte2 <<< 7)))
          else
            setStat emptyStats "total_count" (some byte1)
        else if 4 ≤ n ∧ data.getD (n - 4) 0 = 0x18 then
          let byte1 := data.getD (n - 3) 0
          let byte2 := data.getD (n - 2) 0
          let byte3 := data.getD (n - 1) 0
          if byte1 &&& 0x80 ≠ 0 ∧ byte2 &&& 0x80 ≠ 0 then
            setStat emptyStats "total_count"
              (some ((byte1 &&& 0x7F) + ((byte2 &&& 0x7F) <<< 7) + (byte3 <<< 14)))
          else if byte1 &&& 0x80 ≠ 0 then
            setStat emptyStats "total_count" (some ((byte1 &&& 0x7F) + (byte2 <<< 7)))
          else
            setStat emptyStats "total_count" (some byte1)
        else emptyStats
      if 16 ≤ n then
        let byte1 := data.getD 14 0
        let byte2 := data.getD 15 0
        if byte1 &&& 0x80 ≠ 0 then
          setStat stats1 "total_area" (some ((byte1 &&& 0x7F) + (byte2 <<< 7)))
        else
          setStat stats1 "total_area" (some byte1)
      else stats1

/-- Modelled from the spec (claim about the count field): value of tag `0x18`
scanned at `len-2`, then `len-3`, then `len-4`, with the 1-, 2- and 3-byte
varint interpretations the spec describes; `none` when no tag position
matches. -/
def spec_total_count (data : List Nat) : Option Nat :=
  let n := data.length
  if 2 ≤ n ∧ data.getD (n - 2) 0 = 0x18 then
    some (data.getD (n - 1) 0)
  else if 3 ≤ n ∧ data.getD (n - 3) 0 = 0x18 then
    let b1 := data.getD (n - 2) 0
    let b2 := data.getD (n - 1) 0
    if b1 &&& 0x80 ≠ 0 then some ((b1 &&& 0x7F) + (b2 <<< 7)) else some b1
  else if 4 ≤ n ∧ data.getD (n - 4) 0 = 0x18 then
    let b1 := data.getD (n - 3) 0
    let b2 := data.getD (n - 2) 0
    let b3 := data.getD (n - 1) 0
    if b1 &&& 0x80 ≠ 0 ∧ b2 &&& 0x80 ≠ 0 then
      some ((b1 &&& 0x7F) + ((b2 &&& 0x7F) <<< 7) + (b3 <<< 14))
    else if b1 &&& 0x80 ≠ 0 then some ((b1 &&& 0x7F) + (b2 <<< 7))
    else some b1
  else Option.none

/-- Modelled from the spec (claim about the area field): 2-byte varint at the
fixed offsets 14-15, only for blobs of length at least 16. -/
def spec_total_area (data : List Nat) : Option Nat :=
  if 16 ≤ data.length then
    let b1 := data.getD 14 0
    let b2 := data.getD 15 0
    if b1 &&& 0x80 ≠ 0 then some ((b1 &&& 0x7F) + (b2 <<< 7)) else some b1
  else Option.none

/-- A telemetry value as stored in the coordinator's DP-code dict: Python
booleans, integers, or strings. -/
inductive PyVal : Type where
  | pyBool : Bool → PyVal
  | pyInt : Int → PyVal
  | pyStr : String → PyVal
deriving DecidableEq

/-- Modelled from the host language: Python's built-in `int(value)` as used by
`BatteryPercentageSensor.native_value`, returning `none` where Python raises
`ValueError`/`TypeError` (both caught by the sensor).  `int` of a boolean is
0 or 1; `int` of a string parses an optionally signed decimal integer. -/
def pyToInt : PyVal → Option Int
  | PyVal.pyBool b => some (if b then 1 else 0)
  | PyVal.pyInt n => some n
  | PyVal.pyStr s => s.toInt?

/-- One attempt of `BatteryPercentageSensor.native_value` (sensor.py lines
208-230) on a single DP code: look the code up, convert with `int`, and keep
the result only when it lies in `0..100`.  `none` covers the absent key, the
conversion failure, and the out-of-range cases, all of which fall through to
the next attempt in the source. -/
def batteryTry (d : List (String × PyVal)) (code : String) : Option Int :=
  match dictLookup d code with
  | Option.none => Option.none
  | some v =>
    match pyToInt v with
    | Option.none => Option.none
    | some battery => if 0 ≤ battery ∧ battery ≤ 100 then some battery else Option.none

/-- `BatteryPercentageSensor.native_value`: try DP code `"8"`, then DP code
`"163"`, then `None`.  `data = none` models `coordinator.data is None` and
the empty list models the empty (falsy) dict, both short-circuiting to
`None` via `if self.coordinator.data:`. -/
def battery_native_value (data : Option (List (String × PyVal))) : Option Int :=
  match data with
  | Option.none => Option.none
  | some d =>
    if d = [] then Option.none
    else
      match batteryTry d "8" with
      | some b => some b
      | Option.none => batteryTry d "163"

/-- Modelled from the spec: the validity condition "converts to an integer in
the range 0 to 100" applied to an optional DP value. -/
def spec_valid_battery (v : Option PyVal) : Option Int :=
  match v with
  | Option.none => Option.none
  | some pv =>
    match pyToInt pv with
    | Option.none => Option.none
    | some b => if 0 ≤ b ∧ b ≤ 100 then some b else Option.none

/-- Modelled from the spec: return DP 8 when valid, else DP 163 when valid,
else null.  (No special case for an empty snapshot: both lookups simply
fail there.) -/
def spec_battery (data : Option (List (String × PyVal))) : Option Int :=
  match data with
  | Option.none => Option.none
  | some d =>
    match spec_valid_battery (dictLookup d "8") with
    | some b => some b
    | Option.none => spec_valid_battery (dictLookup d "163")

/-- The monotonic stabilizer logic inlined in both
`TotalCleaningCountSensor.native_value` (sensor.py lines 362-376) and
`TotalCleaningAreaSensor.native_value` (lines 415-429), identical in the two
sensors up to the field name.  Input: the stored `_last_valid_*` and the
freshly parsed sample; output: the updated stored value and the value the
property returns.  A `none` sample returns the stored value unchanged; a
sample at least the stored value (or a first sample) is stored and returned;
a smaller sample is ignored. -/
def stabilizer_update (last : Option Int) (newVal : Option Int) :
    Option Int × Option Int :=
  match newVal with
  | Option.none => (last, last)
  | some v =>
    match last with
    | Option.none => (some v, some v)
    | some lv => if v ≥ lv then (some v, some v) else (some lv, some lv)

/-- Feed a list of samples through the stabilizer, collecting the returned
values. -/
def stabilizerRun : Option Int → List (Option Int) → List (Option Int)
  | _, [] => []
  | s, x :: xs =>
    let r := stabilizer_update s x
    r.2 :: stabilizerRun r.1 xs

/-- Feed a list of samples through the stabilizer, keeping only the stored
state. -/
def stabilizerState (s : Option Int) (samples : List (Option Int)) : Option Int :=
  samples.foldl (fun st x => (stabilizer_update st x).1) s

/-- `TotalCleaningCountSensor.native_value` (sensor.py lines 347-376):
`b64decode` abstracts `base64.b64decode` inside `parse_dps167_statistics`
(`none` for a decode failure); `data` is the coordinator dict.  Returns the
updated `_last_valid_count` and the value returned to the caller. -/
def count_native_value (last : Option Int) (b64decode : String → Option (List Nat))
    (data : Option (List (String × String))) : Option Int × Option Int :=
  match data with
  | Option.none => (last, last)
  | some d =>
    if d = [] then (last, last)
    else
      let dps167 := (dictLookup d "167").getD ""
      if dps167 = "" then (last, last)
      else
        let stats := parse_dps167_statistics (b64decode dps167)
        let new_count := dictGetStat stats "total_count"
        stabilizer_update last (new_count.map Int.ofNat)

/-- `TotalCleaningAreaSensor.native_value` (sensor.py lines 398-429):
identical to the count sensor except that it reads the `total_area` field. -/
def area_native_value (last : Option Int) (b64decode : String → Option (List Nat))
    (data : Option (List (String × String))) : Option Int × Option Int :=
  match data with
  | Option.none => (last, last)
  | some d =>
    if d = [] then (last, last)
    else
      let dps167 := (dictLookup d "167").getD ""
      if dps167 = "" then (last, last)
      else
        let stats := parse_dps167_statistics (b64decode dps167)
        let new_area := dictGetStat stats "total_area"
        stabilizer_update last (new_area.map Int.ofNat)

/-- The order in which the stabilizer's returned values must be
non-decreasing: `none` (nothing ever stored) precedes everything, stored
values are compared as integers. -/
def optLe : Option Int → Option Int → Prop
  | Option.none, _ => True
  | some _, Option.none => False
  | some x, some y => x ≤ y

/-- The stabilizer's state transition on a non-null sample, written as an
optional running maximum. -/
def stepMax (st : Option Int) (v : Int) : Option Int :=
  some (st.elim v fun m => max m v)

end Robovac

namespace Robovac

/-! ### Stabilizer lemmas -/

/-- The stabilizer always returns exactly the value it stores. -/
theorem stabilizer_ret_eq_state (last newVal : Option Int) :
    (stabilizer_update last newVal).2 = (stabilizer_update last newVal).1 := by
  cases newVal with
  | none => rfl
  | some v =>
    cases last with
    | none => rfl
    | some lv =>
      by_cases h : v ≥ lv
      · simp [stabilizer_update, h]
      · simp [stabilizer_update, h]

/-- The stored value never decreases across one update. -/
theorem stabilizer_state_le (last newVal : Option Int) :
    optLe last (stabilizer_update last newVal).1 := by
  cases newVal with
  | none =>
    cases last with
    | none => trivial
    | some lv => exact le_refl lv
  | some v =>
    cases last with
    | none => trivial
    | some lv =>
      by_cases h : v ≥ lv
      · simp [stabilizer_update, h, optLe]
      · simp [stabilizer_update, h, optLe]

/-- The returned values of a stabilizer run form a chain above the initial
state. -/
theorem stabilizerRun_chain (l : List (Option Int)) :
    ∀ s : Option Int, List.Chain optLe s (stabilizerRun s l) := by
  induction l with
  | nil => intro s; exact List.Chain.nil
  | cons x xs ih =>
    intro s
    show List.Chain optLe s
      ((stabilizer_update s x).2 :: stabilizerRun (stabilizer_update s x).1 xs)
    rw [stabilizer_ret_eq_state]
    exact List.Chain.cons (stabilizer_state_le s x) (ih _)

/-- On a non-null sample the new stored value is the running maximum. -/
theorem stabilizer_update_some_fst (st : Option Int) (v : Int) :
    (stabilizer_update st (some v)).1 = stepMax st v := by
  cases st with
  | none => rfl
  | some lv =>
    by_cases h : v ≥ lv
    · simp [stabilizer_update, stepMax, h]
    · simp [stabilizer_update, stepMax, h]
      exact le_of_lt (lt_of_not_ge h)

/-- Folding the stabilizer over samples is folding `stepMax` over the
non-null samples. -/
theorem stabilizerState_eq_foldl_stepMax (l : List (Option Int)) :
    ∀ s : Option Int, stabilizerState s l = l.reduceOption.foldl stepMax s := by
  induction l with
  | nil => intro s; rfl
  | cons x xs ih =>
    intro s
    cases x with
    | none =>
      show stabilizerState ((stabilizer_update s Option.none).1) xs = _
      rw [show (stabilizer_update s Option.none).1 = s from rfl]
      rw [ih s]
      simp [List.reduceOption]
    | some v =>
      show stabilizerState ((stabilizer_update s (some v)).1) xs = _
      rw [stabilizer_update_some_fst, ih]
      simp [List.reduceOption]

/-- Folding `stepMax` from a set state is folding `max`. -/
theorem foldl_stepMax_some (l : List Int) :
    ∀ m : Int, l.foldl stepMax (some m) = some (l.foldl max m) := by
  induction l with
  | nil => intro m; rfl
  | cons v t ih =>
    intro m
    show t.foldl stepMax (stepMax (some m) v) = _
    rw [show stepMax (some m) v = some (max m v) from rfl, ih]
    rfl

/-- Rebracketing of an iterated maximum. -/
theorem foldl_max_swap (t : List Int) :
    ∀ a b : Int, max (t.foldl max a) b = t.foldl max (max a b) := by
  induction t with
  | nil => intro a b; rfl
  | cons c t' ih =>
    intro a b
    show max (t'.foldl max (max a c)) b = t'.foldl max (max (max a b) c)
    rw [ih, max_assoc, max_comm c b, ← max_assoc]

/-! ### Claim C1 -/

/-- Claim C1: for every sequence of optional-integer samples fed through a
stabilized counter, the sequence of returned values is non-decreasing, and
any non-null sample strictly lower than the stored `last_valid` leaves both
the stored value and the returned value unchanged. -/
theorem claim_C1_stabilizer_monotone :
    (∀ samples : List (Option Int),
      List.Chain' optLe (stabilizerRun Option.none samples)) ∧
    ∀ lv v : Int, v < lv →
      stabilizer_update (some lv) (some v) = (some lv, some lv) := by
  constructor
  · intro samples
    have hc := stabilizerRun_chain samples Option.none
    cases h : stabilizerRun Option.none samples with
    | nil => exact List.chain'_nil
    | cons y rest =>
      rw [h] at hc
      exact (List.chain_cons.mp hc).2
  · intro lv v h
    have hge : ¬ v ≥ lv := not_le.mpr h
    simp [stabilizer_update, hge]

/-- Witness for C1: the spec's example run `5, 9, 3, 12` and the rejected
sample `3` below a stored `9`. -/
theorem claim_C1_witness :
    ((3 : Int) < 9 ∧ stabilizer_update (some 9) (some 3) = (some 9, some 9)) ∧
    List.Chain' optLe (stabilizerRun Option.none [some 5, some 9, some 3, some 12]) :=
  ⟨⟨by decide, claim_C1_stabilizer_monotone.2 9 3 (by decide)⟩,
   claim_C1_stabilizer_monotone.1 [some 5, some 9, some 3, some 12]⟩

/-! ### Claim C10 -/

/-- Claim C10: after any history of samples followed by a poll with a
non-null sample `x`, the stored `last_valid` and the returned value both
equal the maximum of all non-null samples observed so far (here
`List.foldl max x` over the earlier non-null samples). -/
theorem claim_C10_running_max (samples : List (Option Int)) (x : Int) :
    stabilizer_update (stabilizerState Option.none samples) (some x) =
      (some (samples.reduceOption.foldl max x),
       some (samples.reduceOption.foldl max x)) := by
  have h1 : (stabilizer_update (stabilizerState Option.none samples) (some x)).1 =
      some (samples.reduceOption.foldl max x) := by
    rw [stabilizer_update_some_fst, stabilizerState_eq_foldl_stepMax]
    cases hred : samples.reduceOption with
    | nil => rfl
    | cons h t =>
      show stepMax (List.foldl stepMax Option.none (h :: t)) x =
        some (List.foldl max x (h :: t))
      rw [List.foldl_cons, show stepMax Option.none h = some h from rfl,
        foldl_stepMax_some]
      show some (max (t.foldl max h) x) = some (List.foldl max (max x h) t)
      rw [foldl_max_swap, max_comm h x]
  have h2 := stabilizer_ret_eq_state (stabilizerState Option.none samples) (some x)
  rw [Prod.ext_iff]
  exact ⟨h1, h2.trans h1⟩

/-! ### Claim C8 -/

/-- Claim C8: a null sample — a missing snapshot, a missing or empty
statistics blob, or an unparseable blob — never changes the stored
`last_valid` of either stabilized counter and the counter returns the prior
value unchanged; before any value has been set this returned value is null. -/
theorem claim_C8_null_propagation :
    (∀ last : Option Int, stabilizer_update last Option.none = (last, last)) ∧
    stabilizer_update Option.none Option.none = (Option.none, Option.none) ∧
    (∀ (last : Option Int) (f : String → Option (List Nat)),
      count_native_value last f Option.none = (last, last) ∧
      count_native_value last f (some []) = (last, last) ∧
      area_native_value last f Option.none = (last, last) ∧
      area_native_value last f (some []) = (last, last)) ∧
    (∀ (last : Option Int) (f : String → Option (List Nat))
        (d : List (String × String)),
      dictLookup d "167" = Option.none →
        count_native_value last f (some d) = (last, last) ∧
        area_native_value last f (some d) = (last, last)) ∧
    (∀ (last : Option Int) (f : String → Option (List Nat))
        (d : List (String × String)),
      dictLookup d "167" = some "" →
        count_native_value last f (some d) = (last, last) ∧
        area_native_value last f (some d) = (last, last)) ∧
    (∀ (last : Option Int) (f : String → Option (List Nat))
        (d : List (String × String)) (s : String),
      dictLookup d "167" = some s → s ≠ "" → f s = Option.none →
        count_native_value last f (some d) = (last, last) ∧
        area_native_value last f (some d) = (last, last)) := by
  refine ⟨fun last => rfl, rfl, fun last f => ⟨rfl, rfl, rfl, rfl⟩, ?_, ?_, ?_⟩
  · intro last f d h
    by_cases hd : d = []
    · subst hd; exact ⟨rfl, rfl⟩
    · constructor <;> simp [count_native_value, area_native_value, hd, h]
  · intro last f d h
    by_cases hd : d = []
    · subst hd; exact ⟨rfl, rfl⟩
    · constructor <;> simp [count_native_value, area_native_value, hd, h]
  · intro last f d s h hs hf
    have hd : d ≠ [] := by
      intro e; subst e; simp [dictLookup] at h
    constructor <;>
      simp [count_native_value, area_native_value, hd, h, hs, hf,
        parse_dps167_statistics, dictGetStat, dictLookup, emptyStats,
        stabilizer_update]

/-- Witness for C8: concrete snapshots with a missing blob, an empty blob and
a blob whose base64 decoding fails. -/
theorem claim_C8_witness :
    (dictLookup ([("5", "x")] : List (String × String)) "167" = Option.none ∧
      count_native_value (some 4) (fun _ => Option.none) (some [("5", "x")]) =
        (some 4, some 4)) ∧
    (dictLookup ([("167", "")] : List (String × String)) "167" = some "" ∧
      area_native_value (some 4) (fun _ => Option.none) (some [("167", "")]) =
        (some 4, some 4)) ∧
    (dictLookup ([("167", "ab")] : List (String × String)) "167" = some "ab" ∧
      "ab" ≠ "" ∧
      (fun _ : String => (Option.none : Option (List Nat))) "ab" = Option.none ∧
      count_native_value (some 4) (fun _ => Option.none) (some [("167", "ab")]) =
        (some 4, some 4)) :=
  ⟨⟨rfl, (claim_C8_null_propagation.2.2.2.1 (some 4) (fun _ => Option.none)
            [("5", "x")] rfl).1⟩,
   ⟨rfl, (claim_C8_null_propagation.2.2.2.2.1 (some 4) (fun _ => Option.none)
            [("167", "")] rfl).2⟩,
   ⟨rfl, by decide, rfl,
    (claim_C8_null_propagation.2.2.2.2.2 (some 4) (fun _ => Option.none)
      [("167", "ab")] "ab" rfl (by decide) rfl).1⟩⟩

/-! ### Claim C4 -/

/-- Claim C4: a failed base64 decode (modelled as `Option.none`) and an empty
decode result both yield a statistics record with `total_count` and
`total_area` null.  The embedding is a total function, mirroring the source's
catch-all `except` branch: no exception reaches the caller. -/
theorem claim_C4_malformed_input :
    dictGetStat (parse_dps167_statistics Option.none) "total_count" = Option.none ∧
    dictGetStat (parse_dps167_statistics Option.none) "total_area" = Option.none ∧
    dictGetStat (parse_dps167_statistics (some [])) "total_count" = Option.none ∧
    dictGetStat (parse_dps167_statistics (some [])) "total_area" = Option.none :=
  ⟨rfl, rfl, rfl, rfl⟩

/-! ### Claim C5 -/

/-- Counterexample to claim C5: at the concrete input `Option.none` (a failed
decode) the parser's output does contain a `total_time_mins` field — stored
with a null value — so the field is not absent from the output structure. -/
theorem claim_C5_counterexample :
    ¬ dictLookup (parse_dps167_statistics Option.none) "total_time_mins" =
        Option.none := by
  decide

/-- Claim C5 as amended: for every input, the parser's output contains a
`total_time_mins` field whose value is always null — the cleaning-time field
is never decoded, but it is present-with-null rather than absent. -/
theorem claim_C5_time_always_null (decoded : Option (List Nat)) :
    dictLookup (parse_dps167_statistics decoded) "total_time_mins" =
      some Option.none := by
  cases decoded with
  | none => rfl
  | some data =>
    unfold parse_dps167_statistics
    dsimp only
    split_ifs <;> rfl

/-! ### Claims C2 and C3 -/

/-- Reading past a list head block with default 0. -/
theorem getD_append_at (pre l : List Nat) (i : Nat) :
    (pre ++ l).getD (pre.length + i) 0 = l.getD i 0 := by
  rw [List.getD_append_right pre l 0 (pre.length + i) (by omega)]
  congr 1
  omega

/-- The `total_count` entry of the parser's record is exactly the spec's
tag-scan value. -/
theorem count_field_eq (data : List Nat) :
    dictGetStat (parse_dps167_statistics (some data)) "total_count" =
      spec_total_count data := by
  unfold parse_dps167_statistics spec_total_count
  dsimp only
  by_cases h0 : data.length = 0
  · rw [if_pos h0]
    have he : data = [] := List.length_eq_zero.mp h0
    subst he
    rfl
  · rw [if_neg h0]
    split_ifs <;> rfl

/-- The `total_area` entry of the parser's record is exactly the spec's
fixed-offset value. -/
theorem area_field_eq (data : List Nat) :
    dictGetStat (parse_dps167_statistics (some data)) "total_area" =
      spec_total_area data := by
  unfold parse_dps167_statistics spec_total_area
  dsimp only
  by_cases h0 : data.length = 0
  · rw [if_pos h0]
    have he : data = [] := List.length_eq_zero.mp h0
    subst he
    rfl
  · rw [if_neg h0]
    split_ifs <;> rfl

/-- Any blob ending in the bytes `0x18, b` has count value `b`. -/
theorem spec_total_count_tail2 (pre : List Nat) (b : Nat) :
    spec_total_count (pre ++ [0x18, b]) = some b := by
  unfold spec_total_count
  dsimp only
  have e0 : (pre ++ [0x18, b]).length = pre.length + 2 := by simp
  have e1 : (pre ++ [0x18, b]).getD ((pre ++ [0x18, b]).length - 2) 0 = 0x18 := by
    rw [e0, (by omega : pre.length + 2 - 2 = pre.length + 0), getD_append_at]
    rfl
  have e2 : (pre ++ [0x18, b]).getD ((pre ++ [0x18, b]).length - 1) 0 = b := by
    rw [e0, (by omega : pre.length + 2 - 1 = pre.length + 1), getD_append_at]
    rfl
  rw [if_pos ⟨by rw [e0]; omega, e1⟩, e2]

/-- Any blob ending in the bytes `0x18, 0x94, 0x01` has count value 148. -/
theorem spec_total_count_tail3 (pre : List Nat) :
    spec_total_count (pre ++ [0x18, 0x94, 0x01]) = some 148 := by
  unfold spec_total_count
  dsimp only
  have e0 : (pre ++ [0x18, 0x94, 0x01]).length = pre.length + 3 := by simp
  have g3 : (pre ++ [0x18, 0x94, 0x01]).getD
      ((pre ++ [0x18, 0x94, 0x01]).length - 3) 0 = 0x18 := by
    rw [e0, (by omega : pre.length + 3 - 3 = pre.length + 0), getD_append_at]
    rfl
  have g2 : (pre ++ [0x18, 0x94, 0x01]).getD
      ((pre ++ [0x18, 0x94, 0x01]).length - 2) 0 = 0x94 := by
    rw [e0, (by omega : pre.length + 3 - 2 = pre.length + 1), getD_append_at]
    rfl
  have g1 : (pre ++ [0x18, 0x94, 0x01]).getD
      ((pre ++ [0x18, 0x94, 0x01]).length - 1) 0 = 0x01 := by
    rw [e0, (by omega : pre.length + 3 - 1 = pre.length + 2), getD_append_at]
    rfl
  have hc1 : ¬ (2 ≤ (pre ++ [0x18, 0x94, 0x01]).length ∧
      (pre ++ [0x18, 0x94, 0x01]).getD ((pre ++ [0x18, 0x94, 0x01]).length - 2) 0
        = 0x18) := by
    intro h
    rw [g2] at h
    exact absurd h.2 (by decide)
  rw [if_neg hc1, if_pos ⟨by rw [e0]; omega, g3⟩, g2, g1]
  decide

/-- Claim C2: the parser's `total_count` follows the tag-scan rule — tag byte
`0x18` at `len-2`, then `len-3`, then `len-4`, with the 1-, 2- and 3-byte
varint readings, null when no tag position matches — and in particular a blob
ending in `0x18, 0x07` gives 7 and one ending in `0x18, 0x94, 0x01` gives
148. -/
theorem claim_C2_count_field :
    (∀ data : List Nat,
      dictGetStat (parse_dps167_statistics (some data)) "total_count" =
        spec_total_count data) ∧
    (∀ pre : List Nat,
      dictGetStat (parse_dps167_statistics (some (pre ++ [0x18, 0x07])))
        "total_count" = some 7) ∧
    (∀ pre : List Nat,
      dictGetStat (parse_dps167_statistics (some (pre ++ [0x18, 0x94, 0x01])))
        "total_count" = some 148) := by
  refine ⟨count_field_eq, ?_, ?_⟩
  · intro pre
    rw [count_field_eq, spec_total_count_tail2]
  · intro pre
    rw [count_field_eq, spec_total_count_tail3]

/-- Claim C3: the parser's `total_area` is the 2-byte varint at offsets 14-15
for blobs of length at least 16 and null for shorter blobs; bytes
`0x94, 0x01` there give 148. -/
theorem claim_C3_area_field :
    (∀ data : List Nat,
      dictGetStat (parse_dps167_statistics (some data)) "total_area" =
        spec_total_area data) ∧
    (∀ data : List Nat, data.length ≤ 15 →
      dictGetStat (parse_dps167_statistics (some data)) "total_area" =
        Option.none) ∧
    (∀ data : List Nat, 16 ≤ data.length →
      data.getD 14 0 = 0x94 → data.getD 15 0 = 0x01 →
      dictGetStat (parse_dps167_statistics (some data)) "total_area" =
        some 148) := by
  refine ⟨area_field_eq, ?_, ?_⟩
  · intro data h
    rw [area_field_eq]
    unfold spec_total_area
    rw [if_neg (by omega)]
  · intro data h16 h14 h15
    rw [area_field_eq]
    unfold spec_total_area
    rw [if_pos h16]
    dsimp only
    rw [h14, h15]
    decide

/-- Witness for C3: a 16-byte blob with `0x94, 0x01` at offsets 14-15, and a
1-byte blob that is too short. -/
theorem claim_C3_witness :
    (([0x18] : List Nat).length ≤ 15 ∧
      dictGetStat (parse_dps167_statistics (some [0x18])) "total_area" =
        Option.none) ∧
    (16 ≤ ([0, 0, 0, 0, 0, 0, 0, 0, 0, 0, 0, 0, 0, 0, 0x94, 0x01] : List Nat).length ∧
      ([0, 0, 0, 0, 0, 0, 0, 0, 0, 0, 0, 0, 0, 0, 0x94, 0x01] : List Nat).getD 14 0
        = 0x94 ∧
      ([0, 0, 0, 0, 0, 0, 0, 0, 0, 0, 0, 0, 0, 0, 0x94, 0x01] : List Nat).getD 15 0
        = 0x01 ∧
      dictGetStat
        (parse_dps167_statistics
          (some [0, 0, 0, 0, 0, 0, 0, 0, 0, 0, 0, 0, 0, 0, 0x94, 0x01]))
        "total_area" = some 148) :=
  ⟨⟨by decide, claim_C3_area_field.2.1 [0x18] (by decide)⟩,
   ⟨by decide, by decide, by decide,
    claim_C3_area_field.2.2 [0, 0, 0, 0, 0, 0, 0, 0, 0, 0, 0, 0, 0, 0, 0x94, 0x01]
      (by decide) (by decide) (by decide)⟩⟩

/-! ### Claim C9 -/

/-- One lookup attempt of the battery sensor agrees with the spec's validity
condition applied to the looked-up value. -/
theorem batteryTry_eq_spec (d : List (String × PyVal)) (code : String) :
    batteryTry d code = spec_valid_battery (dictLookup d code) := by
  unfold batteryTry spec_valid_battery
  cases dictLookup d code <;> rfl

/-- Claim C9: for every snapshot the battery sensor returns DP code 8 when it
converts to an integer in 0..100, otherwise DP code 163 under the same
condition, otherwise null. -/
theorem claim_C9_battery_fallback (data : Option (List (String × PyVal))) :
    battery_native_value data = spec_battery data := by
  cases data with
  | none => rfl
  | some d =>
    by_cases hd : d = []
    · subst hd; rfl
    · show battery_native_value (some d) = spec_battery (some d)
      unfold battery_native_value spec_battery
      dsimp only
      rw [if_neg hd, batteryTry_eq_spec, batteryTry_eq_spec]

/-! ### Varint lemmas (claims C6 and C7) -/

/-- Bit-or of disjoint parts is addition: a value below `2 ^ k` or-ed with a
left shift by `k` adds. -/
theorem lor_shiftLeft_eq_add (a b k : Nat) (h : a < 2 ^ k) :
    a ||| b <<< k = a + b * 2 ^ k := by
  apply Nat.eq_of_testBit_eq
  intro i
  rw [Nat.testBit_or, Nat.testBit_shiftLeft]
  have hrhs : a + b * 2 ^ k = 2 ^ k * b + a := by ring
  rw [hrhs, Nat.testBit_mul_pow_two_add b h i]
  by_cases hi : i < k
  · have hik : ¬ i ≥ k := by omega
    simp [hi, hik]
  · have hik : i ≥ k := by omega
    have ha : a.testBit i = false :=
      Nat.testBit_eq_false_of_lt
        (lt_of_lt_of_le h (Nat.pow_le_pow_right (by omega) (by omega)))
    simp [hi, hik, ha]

/-- Masking with `0x7F` is reduction modulo 128. -/
theorem and_127_eq_mod (x : Nat) : x &&& 127 = x % 128 := by
  have h1 : (127 : Nat) = 2 ^ 7 - 1 := by norm_num
  have h2 : (128 : Nat) = 2 ^ 7 := by norm_num
  rw [h1, h2, Nat.and_pow_two_sub_one_eq_mod]

/-- Masking with `0x80` extracts bit 7. -/
theorem and_128_eq_testBit (x : Nat) : x &&& 128 = (x.testBit 7).toNat * 128 := by
  have h2 : (128 : Nat) = 2 ^ 7 := by norm_num
  rw [h2, Nat.and_two_pow]

/-- A byte below 128 has bit 7 clear, so its `0x80` mask is zero. -/
theorem and_128_eq_zero_of_lt (n : Nat) (h : n < 128) : n &&& 128 = 0 := by
  have e : (2 : Nat) ^ 7 = 128 := by norm_num
  have h7 : n.testBit 7 = false := Nat.testBit_eq_false_of_lt (by omega)
  rw [and_128_eq_testBit, h7]
  rfl

/-- Adding 128 to a byte below 128 sets bit 7. -/
theorem testBit7_add_128 (m : Nat) (h : m < 128) : (m + 128).testBit 7 = true := by
  have e : (2 : Nat) ^ 7 = 128 := by norm_num
  have h2 : m + 128 = 2 ^ 7 * 1 + m := by rw [e]; omega
  have hm : m < 2 ^ 7 := by omega
  rw [h2, Nat.testBit_mul_pow_two_add 1 hm 7]
  simp

/-- The head of the remaining input. -/
theorem getD_drop (data : List Nat) (pos : Nat) :
    (data.drop pos).getD 0 0 = data.getD pos 0 := by
  rw [List.getD_eq_getElem?_getD, List.getD_eq_getElem?_getD, List.getElem?_drop]
  norm_num

/-- A base-128 encoding is never empty. -/
theorem varintEncode_length_pos (n : Nat) : 0 < (varintEncode n).length := by
  unfold varintEncode
  split_ifs <;> simp

/-- Core correctness of the decoding loop: when the remaining input starts
with the encoding of `n`, the loop adds `n`, shifted into place, to the
accumulator and stops right after that encoding. -/
theorem decodeVarintLoop_encode (n : Nat) :
    ∀ (data rest : List Nat) (pos value shift : Nat),
      data.drop pos = varintEncode n ++ rest → value < 2 ^ shift →
      decodeVarintLoop data pos value shift =
        (value + n * 2 ^ shift, pos + (varintEncode n).length) := by
  induction n using Nat.strong_induction_on with
  | _ n ih =>
    intro data rest pos value shift hdrop hval
    have hlp : data.length - pos = (varintEncode n ++ rest).length := by
      rw [← List.length_drop, hdrop]
    have hel := varintEncode_length_pos n
    have hpos : pos < data.length := by
      rw [List.length_append] at hlp
      omega
    have hbyte : data.getD pos 0 = (varintEncode n ++ rest).getD 0 0 := by
      rw [← getD_drop, hdrop]
    by_cases hn : n < 128
    · have henc : varintEncode n = [n] := by
        unfold varintEncode
        rw [if_pos hn]
      rw [henc] at hdrop hbyte
      have hb : data.getD pos 0 = n := hbyte
      rw [decodeVarintLoop, dif_pos hpos]
      dsimp only
      rw [hb, if_pos (and_128_eq_zero_of_lt n hn), and_127_eq_mod,
        Nat.mod_eq_of_lt (by omega), lor_shiftLeft_eq_add value n shift hval, henc]
      rfl
    · have henc : varintEncode n = (n % 128 + 128) :: varintEncode (n / 128) := by
        conv_lhs => rw [varintEncode]
        rw [if_neg hn]
      rw [henc] at hdrop hbyte
      have hb : data.getD pos 0 = n % 128 + 128 := hbyte
      have hm : n % 128 < 128 := Nat.mod_lt n (by omega)
      have hbit : (n % 128 + 128) &&& 128 ≠ 0 := by
        rw [and_128_eq_testBit, testBit7_add_128 (n % 128) hm]
        simp
      have hmask : (n % 128 + 128) &&& 127 = n % 128 := by
        rw [and_127_eq_mod]
        omega
      rw [decodeVarintLoop, dif_pos hpos]
      dsimp only
      rw [hb, if_neg hbit, hmask, lor_shiftLeft_eq_add _ _ _ hval]
      have hdrop1 : data.drop (pos + 1) = varintEncode (n / 128) ++ rest := by
        have hdd : (data.drop pos).drop 1 = data.drop (pos + 1) :=
          List.drop_drop 1 pos data
        rw [← hdd, hdrop]
        rfl
      have hval' : value + n % 128 * 2 ^ shift < 2 ^ (shift + 7) := by
        have hstep : value + n % 128 * 2 ^ shift < (1 + n % 128) * 2 ^ shift := by
          rw [Nat.add_mul, Nat.one_mul]
          omega
        have hcap : (1 + n % 128) * 2 ^ shift ≤ 128 * 2 ^ shift :=
          Nat.mul_le_mul_right _ (by omega)
        have hpow : 2 ^ (shift + 7) = 2 ^ shift * 128 := by
          rw [pow_add]
          norm_num
        rw [hpow]
        omega
      rw [ih (n / 128) (Nat.div_lt_self (by omega) (by omega)) data rest (pos + 1)
        _ (shift + 7) hdrop1 hval']
      have hlen : (varintEncode n).length = (varintEncode (n / 128)).length + 1 := by
        rw [henc]
        simp
      have hpow : 2 ^ (shift + 7) = 2 ^ shift * 128 := by
        rw [pow_add]
        norm_num
      have hdm : 128 * (n / 128) + n % 128 = n := Nat.div_add_mod n 128
      rw [Prod.ext_iff]
      constructor
      · show value + n % 128 * 2 ^ shift + n / 128 * 2 ^ (shift + 7) = value + n * 2 ^ shift
        rw [hpow]
        calc value + n % 128 * 2 ^ shift + n / 128 * (2 ^ shift * 128)
            = value + (n % 128 + 128 * (n / 128)) * 2 ^ shift := by ring
          _ = value + n * 2 ^ shift := by rw [show n % 128 + 128 * (n / 128) = n by omega]
      · show pos + 1 + (varintEncode (n / 128)).length = pos + (varintEncode n).length
        rw [hlen]
        omega

/-- Decoding an encoded value embedded in a larger buffer recovers the value
and the offset just past its encoding. -/
theorem decode_varint_encode (n : Nat) (pre rest : List Nat) :
    decode_varint (pre ++ (varintEncode n ++ rest)) pre.length =
      (n, pre.length + (varintEncode n).length) := by
  unfold decode_varint
  rw [decodeVarintLoop_encode n (pre ++ (varintEncode n ++ rest)) rest pre.length 0 0
    (List.drop_left pre _) (by norm_num)]
  norm_num

/-- Decoding a concatenation of encodings, value by value, yields exactly the
expected `(value, next_position)` pairs, relative to any already-consumed
head block. -/
theorem decodeSeq_encodeSeq (vs : List Nat) :
    ∀ pre : List Nat,
      decodeSeq (pre ++ encodeSeq vs) pre.length vs.length =
        expectedPairs pre.length vs := by
  induction vs with
  | nil => intro pre; rfl
  | cons v vs' ih =>
    intro pre
    have hbuf : pre ++ encodeSeq (v :: vs') = pre ++ (varintEncode v ++ encodeSeq vs') := by
      simp [encodeSeq]
    show decodeSeq (pre ++ encodeSeq (v :: vs')) pre.length (vs'.length + 1) = _
    rw [hbuf]
    show decode_varint (pre ++ (varintEncode v ++ encodeSeq vs')) pre.length ::
        decodeSeq (pre ++ (varintEncode v ++ encodeSeq vs'))
          (decode_varint (pre ++ (varintEncode v ++ encodeSeq vs')) pre.length).2
          vs'.length =
      expectedPairs pre.length (v :: vs')
    rw [decode_varint_encode v pre (encodeSeq vs')]
    show (v, pre.length + (varintEncode v).length) ::
        decodeSeq (pre ++ (varintEncode v ++ encodeSeq vs'))
          (pre.length + (varintEncode v).length) vs'.length =
      (v, pre.length + (varintEncode v).length) ::
        expectedPairs (pre.length + (varintEncode v).length) vs'
    have hassoc : pre ++ (varintEncode v ++ encodeSeq vs') =
        (pre ++ varintEncode v) ++ encodeSeq vs' := by
      rw [List.append_assoc]
    have hlen : pre.length + (varintEncode v).length = (pre ++ varintEncode v).length := by
      rw [List.length_append]
    rw [hassoc, hlen, ih (pre ++ varintEncode v)]

/-- The expected pairs carry exactly the original values. -/
theorem expectedPairs_map_fst (vs : List Nat) :
    ∀ pos : Nat, (expectedPairs pos vs).map Prod.fst = vs := by
  induction vs with
  | nil => intro pos; rfl
  | cons v vs' ih =>
    intro pos
    show (v, pos + (varintEncode v).length).1 ::
        (expectedPairs (pos + (varintEncode v).length) vs').map Prod.fst = v :: vs'
    rw [ih]

/-! ### Claim C6 -/

/-- Claim C6: for every sequence of unsigned integers below `2 ^ 21`,
concatenating their base-128 continuation encodings and repeatedly applying
`decode_varint` reproduces the original values, and each call returns the
position immediately after the encoding of the value it decoded. -/
theorem claim_C6_varint_roundtrip (vs : List Nat) (hv : ∀ v ∈ vs, v < 2 ^ 21) :
    decodeSeq (encodeSeq vs) 0 vs.length = expectedPairs 0 vs ∧
    (decodeSeq (encodeSeq vs) 0 vs.length).map Prod.fst = vs := by
  have h := decodeSeq_encodeSeq vs []
  rw [List.nil_append] at h
  refine ⟨h, ?_⟩
  rw [show (([] : List Nat)).length = 0 from rfl] at h
  rw [h, expectedPairs_map_fst]

/-- Witness for C6: the sequence `5, 200, 70000` (all below `2 ^ 21`)
round-trips. -/
theorem claim_C6_witness :
    (∀ v ∈ ([5, 200, 70000] : List Nat), v < 2 ^ 21) ∧
    (decodeSeq (encodeSeq [5, 200, 70000]) 0 ([5, 200, 70000] : List Nat).length =
        expectedPairs 0 [5, 200, 70000] ∧
      (decodeSeq (encodeSeq [5, 200, 70000]) 0
          ([5, 200, 70000] : List Nat).length).map Prod.fst = [5, 200, 70000]) :=
  ⟨by decide, claim_C6_varint_roundtrip [5, 200, 70000] (by decide)⟩

/-! ### Claim C7 -/

/-- Behaviour of the decoding loop at arbitrary positions: the returned
position never passes the end of the input, advances past at least one byte
when one is available, points just past a terminal byte whenever it stops
before the end, and reaches the end exactly when every remaining byte keeps
the continuation bit set. -/
theorem decodeVarintLoop_pos_spec (data : List Nat) :
    ∀ (fuel pos value shift : Nat), data.length - pos ≤ fuel → pos ≤ data.length →
      pos ≤ (decodeVarintLoop data pos value shift).2 ∧
      (decodeVarintLoop data pos value shift).2 ≤ data.length ∧
      (pos < data.length → pos < (decodeVarintLoop data pos value shift).2) ∧
      ((decodeVarintLoop data pos value shift).2 < data.length →
        data.getD ((decodeVarintLoop data pos value shift).2 - 1) 0 &&& 0x80 = 0) ∧
      ((data.drop pos).all (fun b => b &&& 0x80 != 0) = true →
        (decodeVarintLoop data pos value shift).2 = data.length) := by
  intro fuel
  induction fuel with
  | zero =>
    intro pos value shift hfuel hpos
    have hend : ¬ pos < data.length := by omega
    rw [decodeVarintLoop, dif_neg hend]
    exact ⟨le_refl pos, hpos, fun h => absurd h hend, fun h => by omega,
      fun _ => by omega⟩
  | succ fuel ih =>
    intro pos value shift hfuel hpos
    by_cases hp : pos < data.length
    · rw [decodeVarintLoop, dif_pos hp]
      dsimp only
      by_cases hb : data.getD pos 0 &&& 0x80 = 0
      · rw [if_pos hb]
        refine ⟨by omega, by omega, fun _ => by omega, fun _ => ?_, fun hall => ?_⟩
        · rw [Nat.add_sub_cancel]
          exact hb
        · exfalso
          rw [List.drop_eq_getElem_cons hp, List.all_cons] at hall
          have hgb : data.getD pos 0 = data[pos] := List.getD_eq_getElem data 0 hp
          rw [hgb] at hb
          rw [Bool.and_eq_true, bne_iff_ne] at hall
          exact hall.1 hb
      · rw [if_neg hb]
        obtain ⟨h1, h2, h3, h4, h5⟩ := ih (pos + 1)
          (value ||| ((data.getD pos 0 &&& 0x7F) <<< shift))
          (shift + 7) (by omega) (by omega)
        refine ⟨by omega, h2, fun _ => by omega, h4, fun hall => ?_⟩
        apply h5
        rw [List.drop_eq_getElem_cons hp, List.all_cons, Bool.and_eq_true] at hall
        exact hall.2
    · have hend : ¬ pos < data.length := hp
      rw [decodeVarintLoop, dif_neg hend]
      exact ⟨le_refl pos, hpos, fun h => absurd h hend, fun h => by omega,
        fun _ => by omega⟩

/-- Claim C7: for every byte sequence and every in-range start position,
`decode_varint` stops at end-of-input without error even when the
continuation bit is set on the last available byte, and its returned
position is just past the last byte it consumed: it stays within the input,
advances when a byte is available, follows a byte with bit 7 clear whenever
it is not the end of the input, and equals the input length when every
remaining byte has bit 7 set. -/
theorem claim_C7_truncation_safe (data : List Nat) (pos : Nat)
    (h : pos ≤ data.length) :
    pos ≤ (decode_varint data pos).2 ∧
    (decode_varint data pos).2 ≤ data.length ∧
    (pos < data.length → pos < (decode_varint data pos).2) ∧
    ((decode_varint data pos).2 < data.length →
      data.getD ((decode_varint data pos).2 - 1) 0 &&& 0x80 = 0) ∧
    ((data.drop pos).all (fun b => b &&& 0x80 != 0) = true →
      (decode_varint data pos).2 = data.length) :=
  decodeVarintLoop_pos_spec data (data.length - pos) pos 0 0 (le_refl _) h

/-- Witness for C7: the two-byte input `0x81, 0x82` whose final byte still
has the continuation bit set, decoded from position 0. -/
theorem claim_C7_witness :
    (0 : Nat) ≤ ([0x81, 0x82] : List Nat).length ∧
    (0 ≤ (decode_varint [0x81, 0x82] 0).2 ∧
      (decode_varint [0x81, 0x82] 0).2 ≤ ([0x81, 0x82] : List Nat).length ∧
      (0 < ([0x81, 0x82] : List Nat).length → 0 < (decode_varint [0x81, 0x82] 0).2) ∧
      ((decode_varint [0x81, 0x82] 0).2 < ([0x81, 0x82] : List Nat).length →
        ([0x81, 0x82] : List Nat).getD ((decode_varint [0x81, 0x82] 0).2 - 1) 0 &&&
          0x80 = 0) ∧
      ((([0x81, 0x82] : List Nat).drop 0).all (fun b => b &&& 0x80 != 0) = true →
        (decode_varint [0x81, 0x82] 0).2 = ([0x81, 0x82] : List Nat).length)) :=
  ⟨by decide, claim_C7_truncation_safe [0x81, 0x82] 0 (by decide)⟩

end Robovac
